import Mathlib

/-!
Shallow embedding of the chat client in src/script.js: conversation-history
management (bounded append + localStorage persistence), prompt building, the
init path, and the submit-cycle of the form handler.  JavaScript strings are
modelled as Lean strings, JSON values as an inductive type, localStorage under
the history key as a three-state store (absent / unparseable / parsed value),
and the DOM transcript as a list of entries.
-/

namespace LorealChat

/-- A chat message object `{ role, content }` as stored in the in-memory
history array (script.js line 94 comment). -/
structure Message where
  role : String
  content : String
  deriving DecidableEq

/-- script.js line 15: `const MAX_HISTORY_MESSAGES = 20`. -/
def MAX_HISTORY_MESSAGES : Nat := 20

/-- The push-then-truncate pattern of script.js lines 122-125 and 168-171:
`history.push(m); if (history.length > MAX_HISTORY_MESSAGES) history =
history.slice(-MAX_HISTORY_MESSAGES);`.  `slice(-N)` keeps the last `N`
elements, i.e. drops `length - N` from the front. -/
def pushTruncate (history : List Message) (m : Message) : List Message :=
  let h := history ++ [m]
  if h.length > MAX_HISTORY_MESSAGES then h.drop (h.length - MAX_HISTORY_MESSAGES) else h

/-- A JSON value, the result of a successful `JSON.parse`.  Numeric precision
is irrelevant to every claim, so numbers carry an `Int`. -/
inductive Json where
  | null : Json
  | bool : Bool → Json
  | num : Int → Json
  | str : String → Json
  | arr : List Json → Json
  | obj : List (String × Json) → Json

/-- Model of `Array.isArray` (script.js line 95). -/
def Json.isArr : Json → Bool
  | .arr _ => true
  | _ => false

/-- JavaScript optional-chained property access `v?.k`: a lookup on an object,
`undefined` (here `none`) on everything else, including `null` via the
short-circuit of `?.`. -/
def Json.getF : Json → String → Option Json
  | .obj fields, k => fields.lookup k
  | _, _ => none

/-- JavaScript `v?.[0]` as used in `data?.choices?.[0]` (script.js line 163):
first element of an array, first character of a non-empty string, the "0"
property of an object, `undefined` otherwise. -/
def Json.idx0 : Json → Option Json
  | .arr xs => xs.head?
  | .str s =>
      match s.data with
      | c :: _ => some (.str (String.mk [c]))
      | [] => none
  | .obj fields => fields.lookup "0"
  | _ => none

/-- The state of localStorage under the history key: absent (`getItem` returns
null), present but not parseable as JSON (`JSON.parse` throws), or present and
parsing to a JSON value. -/
inductive Stored where
  | absent : Stored
  | corrupt : Stored
  | value : Json → Stored

/-- The JSON object a `{role, content}` record serializes to
(`JSON.stringify`, script.js line 21). -/
def encodeMsg (m : Message) : Json :=
  .obj [("role", .str m.role), ("content", .str m.content)]

/-- Serialization `JSON.stringify(history)` of the in-memory history array. -/
def encodeHistory (h : List Message) : Json := .arr (h.map encodeMsg)

/-- Reading a `{role, content}` record back out of a parsed JSON value; a
parsed object is structurally equal to the original message exactly when this
decoding recovers it. -/
def decodeMsg (j : Json) : Option Message :=
  match j.getF "role", j.getF "content" with
  | some (.str r), some (.str c) => some ⟨r, c⟩
  | _, _ => none

/-- Function `saveHistory` (script.js lines 19-25): `localStorage.setItem(HISTORY_KEY,
JSON.stringify(history))` inside try/catch.  `ok` is whether the storage write
succeeds; on failure the exception is caught and the stored value is left as
it was. -/
def saveHistory (ok : Bool) (store : Stored) (history : List Message) : Stored :=
  if ok then .value (encodeHistory history) else store

/-- Function `loadHistory` (script.js lines 26-32): `JSON.parse(getItem(HISTORY_KEY) ||
"[]")` inside try/catch.  Absent (null) yields `"[]"` hence the empty array;
an unparseable value throws and the catch returns `[]`; otherwise the parsed
value is returned as-is (it need not be an array).  The function is total:
it never propagates an exception. -/
def loadHistory (store : Stored) : Json :=
  match store with
  | .absent => .arr []
  | .corrupt => .arr []
  | .value j => j

/-- Result of `loadHistory` followed by the `Array.isArray` guard of script.js lines
94-95: a non-array load result is replaced by the empty array. -/
def loadedHistory (store : Stored) : List Json :=
  match loadHistory store with
  | .arr xs => xs
  | _ => []

/-- script.js line 16: the fixed domain-restriction system prompt. -/
def baseSystemPrompt : String :=
  "You are the L\x27Oréal Smart Product Advisor. Only answer user questions about L\x27Oréal products (makeup, skincare, haircare, fragrances), product details, and personalized routines or recommendations. If a user asks about anything outside L\x27Oréal products or routines, reply briefly that you can only assist with L\x27Oréal product-related questions and offer to help within that scope."

/-- Function `systemPromptFor` (script.js lines 88-90). -/
def systemPromptFor (name : String) : String :=
  baseSystemPrompt ++ "\nUser name: " ++ name ++ ". Use the user\x27s name when appropriate."

/-- The welcome text of script.js line 100, parameterized by the user name. -/
def welcomeText (name : String) : String :=
  "Hi " ++ name ++ "! I\x27m your L\x27Oréal Smart Product Advisor. Ask me about products, routines, or personalised recommendations."

/-- Function `messagesToSend` (script.js lines 135-139): the system message followed by
`history.map((m) => ({role: m.role, content: m.content}))`. -/
def messagesToSend (name : String) (history : List Message) : List Message :=
  ⟨"system", systemPromptFor name⟩ :: history.map (fun m => ⟨m.role, m.content⟩)

/-- JavaScript `String.prototype.trim`: strips whitespace from both ends
(whitespace per `Char.isWhitespace`).  Defined by structural recursion on the
character list so that it evaluates on concrete inputs. -/
def jsTrim (s : String) : String :=
  String.mk (((s.data.dropWhile Char.isWhitespace).reverse.dropWhile
    Char.isWhitespace).reverse)

/-- The reply extraction of script.js line 163:
`data?.choices?.[0]?.message?.content?.trim()` followed by the truthiness test
`if (reply)` on line 165.  `.ok none` means the submit handler takes the
no-reply branch (chain evaluated to undefined or null, or the trimmed string
is empty); `.ok (some r)` means a non-empty trimmed reply `r`; `.error ()`
models the TypeError thrown by `.trim()` when `content` is a value other than
a string, null or undefined — that exception is handled by the catch block of
lines 177-184, not by the no-reply branch. -/
def extractReply (data : Json) : Except Unit (Option String) :=
  match (((data.getF "choices").bind Json.idx0).bind
      (fun j => j.getF "message")).bind (fun j => j.getF "content") with
  | none => .ok none
  | some .null => .ok none
  | some (.str s) => .ok (if jsTrim s = "" then none else some (jsTrim s))
  | some _ => .error ()

/-- One element of the chat window: a message bubble created by
`appendMessage(text, cls)` (script.js lines 41-48), or the typing-indicator
element created by `appendTypingIndicator` (lines 51-59), tagged with an
identifier so that removal targets that specific DOM node. -/
inductive Entry where
  | bubble : String → String → Entry
  | typing : Nat → Entry
  deriving DecidableEq

/-- Effect of `el.remove()` on the typing element with identity `id`: the DOM detaches
that node if it is in the transcript and does nothing (without error) when it
is already detached. -/
def removeEl (transcript : List Entry) (id : Nat) : List Entry :=
  transcript.filter (fun e => decide (e ≠ Entry.typing id))

/-- The outcome of the `fetch` call (script.js lines 142-150) as observed by
the handler: the promise rejects (network-level failure), or a response
arrives with `resp.ok` and a body; `none` for the body means `resp.json()`
throws because the body is not valid JSON. -/
inductive FetchOutcome where
  | netFailure : FetchOutcome
  | response : Bool → Option Json → FetchOutcome

/-- The client state the submit handler reads and writes: the in-memory
`history` array, localStorage under the history key, the chat window, and the
latest-question banner. -/
structure ChatState where
  history : List Message
  store : Stored
  transcript : List Entry
  latest : Option String

/-- The state after one run of the submit handler, plus the message list of
the request body when a network call was issued (`none` when no call was
made). -/
structure CycleResult where
  history : List Message
  store : Stored
  transcript : List Entry
  latest : Option String
  sent : Option (List Message)

/-- One full run of the submit handler (script.js lines 112-185) to
completion.  `tid` is the identity of the typing element this run creates;
`ok1`/`ok2` are whether the two `saveHistory` storage writes succeed;
`outcome` is how the fetch resolves.  Branches, in source order: the
empty-input guard (115), user bubble and user append (118-126), typing
indicator (132), request build (135-139), then: non-OK response (155-160),
body not JSON or TypeError during extraction (caught at 177-184, which first
re-invokes `typingEl.remove()` inside its own try/catch), non-empty reply
(165-172), empty reply (173-176), or fetch rejection (177-184). -/
def submitCycle (name : String) (tid : Nat) (ok1 ok2 : Bool) (input : String)
    (outcome : FetchOutcome) (s : ChatState) : CycleResult :=
  let userText := jsTrim input
  if userText = "" then
    { history := s.history, store := s.store, transcript := s.transcript,
      latest := s.latest, sent := none }
  else
    let t1 := s.transcript ++ [Entry.bubble userText "user"]
    let h1 := pushTruncate s.history ⟨"user", userText⟩
    let st1 := saveHistory ok1 s.store h1
    let t2 := t1 ++ [Entry.typing tid]
    let msgs := messagesToSend name h1
    match outcome with
    | .netFailure =>
        { history := h1, store := st1,
          transcript := removeEl t2 tid ++ [Entry.bubble "Network error. Check console." "ai"],
          latest := some userText, sent := some msgs }
    | .response ok body =>
        let t3 := removeEl t2 tid
        if !ok then
          { history := h1, store := st1,
            transcript := t3 ++ [Entry.bubble "Server error. See console." "ai"],
            latest := some userText, sent := some msgs }
        else
          match body with
          | none =>
              { history := h1, store := st1,
                transcript := removeEl t3 tid ++ [Entry.bubble "Network error. Check console." "ai"],
                latest := some userText, sent := some msgs }
          | some data =>
              match extractReply data with
              | .error _ =>
                  { history := h1, store := st1,
                    transcript := removeEl t3 tid ++ [Entry.bubble "Network error. Check console." "ai"],
                    latest := some userText, sent := some msgs }
              | .ok none =>
                  { history := h1, store := st1,
                    transcript := t3 ++ [Entry.bubble "No reply received. Check worker logs." "ai"],
                    latest := some userText, sent := some msgs }
              | .ok (some reply) =>
                  let h2 := pushTruncate h1 ⟨"assistant", reply⟩
                  { history := h2, store := saveHistory ok2 st1 h2,
                    transcript := t3 ++ [Entry.bubble reply "ai"],
                    latest := some userText, sent := some msgs }

/-- The CSS class chosen when re-rendering a saved element (script.js line
107): `m.role === "user" ? "user" : "ai"`. -/
def renderedCls (j : Json) : String :=
  match j.getF "role" with
  | some (.str r) => if r = "user" then "user" else "ai"
  | _ => "ai"

/-- The text rendered for a saved element (`el.textContent = m.content`,
script.js lines 44/107).  History entries written by this program always
carry a string `content`; for other shapes the DOM coerces (null to the empty
string per the textContent IDL, and so on) — only the string case matters to
any claim. -/
def renderedText (j : Json) : String :=
  match j.getF "content" with
  | some (.str s) => s
  | _ => ""

/-- The state produced after init (script.js lines 93-109): the history is
loaded through the `Array.isArray` guard; if empty, the welcome message is
rendered, pushed and persisted (`saveOk` is whether that storage write
succeeds); otherwise every saved element is rendered and nothing is appended.
The in-memory history is kept here in its serialized form (`List Json`),
since a loaded history may contain arbitrary JSON elements. -/
structure InitResult where
  historyJ : List Json
  store : Stored
  transcript : List Entry

/-- Init (script.js lines 93-109), parameterized by the user name obtained by
`getUserName`. -/
def initChat (name : String) (saveOk : Bool) (store0 : Stored) : InitResult :=
  match loadedHistory store0 with
  | [] =>
      let welcome := welcomeText name
      let h : List Message := [⟨"assistant", welcome⟩]
      { historyJ := h.map encodeMsg, store := saveHistory saveOk store0 h,
        transcript := [Entry.bubble welcome "ai"] }
  | loaded =>
      { historyJ := loaded, store := store0,
        transcript := loaded.map (fun j => Entry.bubble (renderedText j) (renderedCls j)) }

/-- A whole sequence of appends through the push-then-truncate pattern, in
order. -/
def appendAll (h0 : List Message) (ms : List Message) : List Message :=
  ms.foldl pushTruncate h0

theorem pushTruncate_eq_drop (h : List Message) (m : Message) :
    pushTruncate h m = (h ++ [m]).drop ((h ++ [m]).length - MAX_HISTORY_MESSAGES) := by
  by_cases hgt : (h ++ [m]).length > MAX_HISTORY_MESSAGES
  · simp only [pushTruncate, if_pos hgt]
  · simp only [pushTruncate, if_neg hgt]
    rw [Nat.sub_eq_zero_of_le (by omega), List.drop_zero]

theorem pushTruncate_length_le (h : List Message) (m : Message) :
    (pushTruncate h m).length ≤ MAX_HISTORY_MESSAGES := by
  rw [pushTruncate_eq_drop, List.length_drop]
  omega

theorem drop_last_absorb {α : Type _} (k : Nat) (a b : List α) :
    (a.drop (a.length - k) ++ b).drop ((a.drop (a.length - k) ++ b).length - k)
      = (a ++ b).drop ((a ++ b).length - k) := by
  rw [← List.drop_append_of_le_length (Nat.sub_le a.length k), List.drop_drop]
  congr 1
  simp only [List.length_drop, List.length_append]
  omega

theorem appendAll_eq_drop (ms : List Message) :
    ∀ h0 : List Message, h0.length ≤ MAX_HISTORY_MESSAGES →
      appendAll h0 ms = (h0 ++ ms).drop ((h0 ++ ms).length - MAX_HISTORY_MESSAGES) := by
  induction ms with
  | nil =>
      intro h0 hlen
      simp only [appendAll, List.foldl_nil, List.append_nil]
      rw [Nat.sub_eq_zero_of_le hlen, List.drop_zero]
  | cons m ms ih =>
      intro h0 hlen
      show appendAll (pushTruncate h0 m) ms = _
      rw [ih _ (pushTruncate_length_le h0 m), pushTruncate_eq_drop,
        drop_last_absorb MAX_HISTORY_MESSAGES (h0 ++ [m]) ms, List.append_assoc,
        List.singleton_append]

theorem appendAll_long (h0 ms : List Message) (hN : ms.length > MAX_HISTORY_MESSAGES) :
    appendAll h0 ms = ms.drop (ms.length - MAX_HISTORY_MESSAGES) := by
  cases ms with
  | nil =>
      exact absurd hN (by decide)
  | cons m ms =>
      simp only [List.length_cons] at hN
      show appendAll (pushTruncate h0 m) ms = _
      rw [appendAll_eq_drop ms _ (pushTruncate_length_le h0 m),
        List.drop_append_eq_append_drop, List.length_append,
        List.drop_eq_nil_of_le (by omega), List.nil_append]
      have hc : (m :: ms).length - MAX_HISTORY_MESSAGES
          = ((ms.length - MAX_HISTORY_MESSAGES) + 1) := by
        simp only [List.length_cons]
        omega
      rw [hc, List.drop_succ_cons]
      congr 1
      omega

/-- Claim C1: after any sequence of more than MAX_HISTORY_MESSAGES (20)
appends through the push-then-truncate pattern, starting from any history,
the history has length exactly MAX_HISTORY_MESSAGES and equals the last
MAX_HISTORY_MESSAGES appended messages in append order; moreover no single
append ever leaves the history longer than the bound. -/
theorem history_bound_invariant (h0 ms : List Message)
    (hN : ms.length > MAX_HISTORY_MESSAGES) :
    appendAll h0 ms = ms.drop (ms.length - MAX_HISTORY_MESSAGES) ∧
    (appendAll h0 ms).length = MAX_HISTORY_MESSAGES ∧
    ∀ (h : List Message) (m : Message),
      (pushTruncate h m).length ≤ MAX_HISTORY_MESSAGES := by
  refine ⟨appendAll_long h0 ms hN, ?_, fun h m => pushTruncate_length_le h m⟩
  rw [appendAll_long h0 ms hN, List.length_drop]
  omega

/-- Concrete instance of C1: 21 appends onto the empty history. -/
theorem history_bound_invariant_witness :
    ((List.replicate 21 (Message.mk "user" "q")).length > MAX_HISTORY_MESSAGES) ∧
    (appendAll [] (List.replicate 21 (Message.mk "user" "q")) =
        (List.replicate 21 (Message.mk "user" "q")).drop
          ((List.replicate 21 (Message.mk "user" "q")).length - MAX_HISTORY_MESSAGES) ∧
      (appendAll [] (List.replicate 21 (Message.mk "user" "q"))).length
        = MAX_HISTORY_MESSAGES ∧
      ∀ (h : List Message) (m : Message),
        (pushTruncate h m).length ≤ MAX_HISTORY_MESSAGES) :=
  ⟨by decide, history_bound_invariant [] _ (by decide)⟩

theorem pushTruncate_getLast? (h : List Message) (m : Message) :
    (pushTruncate h m).getLast? = some m := by
  by_cases hgt : (h ++ [m]).length > MAX_HISTORY_MESSAGES
  · simp only [pushTruncate, if_pos hgt]
    rw [List.drop_append_of_le_length
        (by simp only [List.length_append, List.length_singleton, MAX_HISTORY_MESSAGES] at hgt ⊢; omega),
      List.getLast?_concat]
  · simp only [pushTruncate, if_neg hgt]
    exact List.getLast?_concat h

theorem mem_pushTruncate {x m : Message} {h : List Message}
    (hx : x ∈ pushTruncate h m) : x ∈ h ∨ x = m := by
  rw [pushTruncate_eq_drop] at hx
  rcases List.mem_append.mp (List.Sublist.mem hx (List.drop_sublist _ _)) with h1 | h1
  · exact Or.inl h1
  · exact Or.inr (List.mem_singleton.mp h1)

theorem removeEl_append (t1 t2 : List Entry) (tid : Nat) :
    removeEl (t1 ++ t2) tid = removeEl t1 tid ++ removeEl t2 tid :=
  List.filter_append t1 t2

theorem removeEl_of_not_mem {t : List Entry} {tid : Nat}
    (h : Entry.typing tid ∉ t) : removeEl t tid = t := by
  refine List.filter_eq_self.mpr fun a ha => ?_
  simp only [decide_eq_true_eq]
  intro heq
  exact h (heq ▸ ha)

theorem removeEl_idem (t : List Entry) (tid : Nat) :
    removeEl (removeEl t tid) tid = removeEl t tid := by
  refine List.filter_eq_self.mpr fun a ha => ?_
  exact (List.mem_filter.mp ha).2

theorem typing_not_mem_removeEl (t : List Entry) (tid : Nat) :
    Entry.typing tid ∉ removeEl t tid := by
  intro hmem
  have := (List.mem_filter.mp hmem).2
  simp at this

theorem removeEl_cycle (t : List Entry) (tid : Nat) (b : Entry)
    (htid : Entry.typing tid ∉ t) (hb : b ≠ Entry.typing tid) :
    removeEl (t ++ [b, Entry.typing tid]) tid = t ++ [b] := by
  rw [removeEl_append, removeEl_of_not_mem htid]
  congr 1
  simp [removeEl, hb]

theorem extractReply_some_ne {d : Json} {r : String}
    (h : extractReply d = Except.ok (some r)) : r ≠ "" := by
  unfold extractReply at h
  split at h
  · simp at h
  · simp at h
  · rename_i s heq
    by_cases hs : jsTrim s = ""
    · rw [if_pos hs] at h
      simp at h
    · rw [if_neg hs] at h
      simp only [Except.ok.injEq, Option.some.injEq] at h
      rw [← h]
      exact hs
  · simp at h

/-- Claim C2: for a persisted history value that is absent, unparseable as
JSON, or parseable but not an array, loading (through the Array.isArray
guard) yields the empty history.  `loadHistory` and `loadedHistory` are total
functions, so no exception ever reaches the caller. -/
theorem loadHistory_recovery :
    loadedHistory Stored.absent = [] ∧ loadedHistory Stored.corrupt = [] ∧
    ∀ j : Json, j.isArr = false → loadedHistory (Stored.value j) = [] := by
  refine ⟨rfl, rfl, fun j hj => ?_⟩
  cases j <;> first
    | rfl
    | exact absurd hj (by simp [Json.isArr])

/-- Concrete instance of C2: a persisted JSON number loads as the empty
history. -/
theorem loadHistory_recovery_witness :
    (Json.num 7).isArr = false ∧ loadedHistory (Stored.value (Json.num 7)) = [] :=
  ⟨rfl, loadHistory_recovery.2.2 (Json.num 7) rfl⟩

/-- Claim C7: appending a message through the push-then-truncate-then-persist
pattern and then loading the persisted history yields a sequence whose last
element is the serialized form of that message, which decodes back to the
message itself.  The persistence write is taken to succeed (`saveHistory`
with `ok = true`), as the claim assumes. -/
theorem append_load_roundtrip (store : Stored) (h : List Message) (m : Message) :
    (loadedHistory (saveHistory true store (pushTruncate h m))).getLast?
        = some (encodeMsg m) ∧
    decodeMsg (encodeMsg m) = some m := by
  constructor
  · show ((pushTruncate h m).map encodeMsg).getLast? = _
    rw [List.getLast?_map, pushTruncate_getLast?]
    rfl
  · cases m with
    | mk r c => rfl

theorem submitCycle_history_shape (name : String) (tid : Nat) (ok1 ok2 : Bool)
    (input : String) (outcome : FetchOutcome) (s : ChatState) :
    (submitCycle name tid ok1 ok2 input outcome s).history = s.history ∨
    ((submitCycle name tid ok1 ok2 input outcome s).history
        = pushTruncate s.history ⟨"user", jsTrim input⟩ ∧ jsTrim input ≠ "") ∨
    (∃ r, r ≠ "" ∧ jsTrim input ≠ "" ∧
      (submitCycle name tid ok1 ok2 input outcome s).history
        = pushTruncate (pushTruncate s.history ⟨"user", jsTrim input⟩) ⟨"assistant", r⟩) := by
  by_cases hemp : jsTrim input = ""
  · left
    simp [submitCycle, hemp]
  · rcases outcome with _ | ⟨ok, body⟩
    · exact Or.inr (Or.inl ⟨by simp [submitCycle, if_neg hemp], hemp⟩)
    · cases ok
      · exact Or.inr (Or.inl ⟨by simp [submitCycle, if_neg hemp], hemp⟩)
      · cases body with
        | none =>
            exact Or.inr (Or.inl ⟨by simp [submitCycle, if_neg hemp], hemp⟩)
        | some data =>
            cases hrep : extractReply data with
            | error e =>
                exact Or.inr (Or.inl ⟨by simp [submitCycle, if_neg hemp, hrep], hemp⟩)
            | ok o =>
                cases o with
                | none =>
                    exact Or.inr (Or.inl ⟨by simp [submitCycle, if_neg hemp, hrep], hemp⟩)
                | some r =>
                    exact Or.inr (Or.inr ⟨r, extractReply_some_ne hrep, hemp,
                      by simp [submitCycle, if_neg hemp, hrep]⟩)

theorem submitCycle_transcript_shape (name : String) (tid : Nat) (ok1 ok2 : Bool)
    (input : String) (outcome : FetchOutcome) (s : ChatState)
    (hemp : jsTrim input ≠ "") :
    ∃ A x y, (submitCycle name tid ok1 ok2 input outcome s).transcript
        = removeEl A tid ++ [Entry.bubble x y] := by
  rcases outcome with _ | ⟨ok, body⟩
  · exact ⟨s.transcript ++ [Entry.bubble (jsTrim input) "user", Entry.typing tid],
      "Network error. Check console.", "ai", by simp [submitCycle, if_neg hemp]⟩
  · cases ok
    · exact ⟨s.transcript ++ [Entry.bubble (jsTrim input) "user", Entry.typing tid],
        "Server error. See console.", "ai", by simp [submitCycle, if_neg hemp]⟩
    · cases body with
      | none =>
          exact ⟨removeEl (s.transcript
              ++ [Entry.bubble (jsTrim input) "user", Entry.typing tid]) tid,
            "Network error. Check console.", "ai", by simp [submitCycle, if_neg hemp]⟩
      | some data =>
          cases hrep : extractReply data with
          | error e =>
              exact ⟨removeEl (s.transcript
                  ++ [Entry.bubble (jsTrim input) "user", Entry.typing tid]) tid,
                "Network error. Check console.", "ai",
                by simp [submitCycle, if_neg hemp, hrep]⟩
          | ok o =>
              cases o with
              | none =>
                  exact ⟨s.transcript ++ [Entry.bubble (jsTrim input) "user", Entry.typing tid],
                    "No reply received. Check worker logs.", "ai",
                    by simp [submitCycle, if_neg hemp, hrep]⟩
              | some r =>
                  exact ⟨s.transcript ++ [Entry.bubble (jsTrim input) "user", Entry.typing tid],
                    r, "ai", by simp [submitCycle, if_neg hemp, hrep]⟩

theorem typing_not_mem_removed_append (A : List Entry) (tid : Nat) (x y : String) :
    Entry.typing tid ∉ removeEl A tid ++ [Entry.bubble x y] := by
  intro hmem
  rcases List.mem_append.mp hmem with hm | hm
  · exact typing_not_mem_removeEl A tid hm
  · simp at hm

theorem submitCycle_typing_removed (name : String) (tid : Nat) (ok1 ok2 : Bool)
    (input : String) (outcome : FetchOutcome) (s : ChatState)
    (htid : Entry.typing tid ∉ s.transcript) :
    Entry.typing tid ∉ (submitCycle name tid ok1 ok2 input outcome s).transcript := by
  by_cases hemp : jsTrim input = ""
  · simpa [submitCycle, hemp] using htid
  · obtain ⟨A, x, y, hT⟩ :=
      submitCycle_transcript_shape name tid ok1 ok2 input outcome s hemp
    rw [hT]
    exact typing_not_mem_removed_append A tid x y

theorem welcomeText_ne (n : String) : welcomeText n ≠ "" := by
  intro h
  have hlen := congrArg String.length h
  simp only [welcomeText, String.length_append] at hlen
  have h1 : ("Hi " : String).length = 3 := rfl
  have h2 : ("" : String).length = 0 := rfl
  omega

/-- Claim C3 is false as stated: on an HTTP-success response whose body is
not parseable (here: `resp.json()` throws), no non-empty assistant text is
extractable, yet the handler renders the generic network-error notice of the
catch block, not the no-reply notice.  History still gains only the user
entry. -/
theorem empty_reply_counterexample :
    (submitCycle "Ada" 0 true true "hi" (FetchOutcome.response true none)
        ⟨[], Stored.absent, [], none⟩).transcript
      = [Entry.bubble "hi" "user", Entry.bubble "Network error. Check console." "ai"] ∧
    (submitCycle "Ada" 0 true true "hi" (FetchOutcome.response true none)
        ⟨[], Stored.absent, [], none⟩).transcript
      ≠ [Entry.bubble "hi" "user", Entry.bubble "No reply received. Check worker logs." "ai"] ∧
    (submitCycle "Ada" 0 true true "hi" (FetchOutcome.response true none)
        ⟨[], Stored.absent, [], none⟩).history = [⟨"user", "hi"⟩] := by
  refine ⟨?_, ?_, ?_⟩ <;> decide

/-- Claim C3 (amended): on an HTTP-success response, when the body parses as
JSON but no non-empty assistant text is extractable the handler renders the
no-reply notice; when the body is not valid JSON, or reply extraction raises
a TypeError, the catch block renders the generic network-error notice
instead.  In every one of these cases the typing indicator is gone from the
final transcript and the history gains exactly the one user entry of this
submission. -/
theorem empty_reply_amended (name : String) (tid : Nat) (ok1 ok2 : Bool)
    (input : String) (body : Option Json) (s : ChatState)
    (hne : jsTrim input ≠ "") (htid : Entry.typing tid ∉ s.transcript) :
    (∀ data, body = some data → extractReply data = Except.ok none →
      (submitCycle name tid ok1 ok2 input (FetchOutcome.response true body) s).history
          = pushTruncate s.history ⟨"user", jsTrim input⟩ ∧
      (submitCycle name tid ok1 ok2 input (FetchOutcome.response true body) s).transcript
          = s.transcript ++ [Entry.bubble (jsTrim input) "user",
              Entry.bubble "No reply received. Check worker logs." "ai"]) ∧
    (body = none →
      (submitCycle name tid ok1 ok2 input (FetchOutcome.response true body) s).history
          = pushTruncate s.history ⟨"user", jsTrim input⟩ ∧
      (submitCycle name tid ok1 ok2 input (FetchOutcome.response true body) s).transcript
          = s.transcript ++ [Entry.bubble (jsTrim input) "user",
              Entry.bubble "Network error. Check console." "ai"]) ∧
    (∀ data, body = some data → extractReply data = Except.error () →
      (submitCycle name tid ok1 ok2 input (FetchOutcome.response true body) s).history
          = pushTruncate s.history ⟨"user", jsTrim input⟩ ∧
      (submitCycle name tid ok1 ok2 input (FetchOutcome.response true body) s).transcript
          = s.transcript ++ [Entry.bubble (jsTrim input) "user",
              Entry.bubble "Network error. Check console." "ai"]) := by
  refine ⟨?_, ?_, ?_⟩
  · intro data hb hrep
    subst hb
    refine ⟨by simp [submitCycle, if_neg hne, hrep], ?_⟩
    simp [submitCycle, if_neg hne, hrep]
    rw [removeEl_cycle s.transcript tid _ htid (by simp)]
    simp
  · intro hb
    subst hb
    refine ⟨by simp [submitCycle, if_neg hne], ?_⟩
    simp [submitCycle, if_neg hne]
    rw [removeEl_idem, removeEl_cycle s.transcript tid _ htid (by simp)]
    simp
  · intro data hb hrep
    subst hb
    refine ⟨by simp [submitCycle, if_neg hne, hrep], ?_⟩
    simp [submitCycle, if_neg hne, hrep]
    rw [removeEl_idem, removeEl_cycle s.transcript tid _ htid (by simp)]
    simp

/-- Concrete instance of the amended C3: success status, body parses to the
empty JSON object, so no reply is extractable and the no-reply notice is
rendered with only the user entry appended. -/
theorem empty_reply_amended_witness :
    (submitCycle "Ada" 0 true true "hi"
        (FetchOutcome.response true (some (Json.obj []))) ⟨[], Stored.absent, [], none⟩).history
      = pushTruncate [] ⟨"user", jsTrim "hi"⟩ ∧
    (submitCycle "Ada" 0 true true "hi"
        (FetchOutcome.response true (some (Json.obj []))) ⟨[], Stored.absent, [], none⟩).transcript
      = [] ++ [Entry.bubble (jsTrim "hi") "user",
          Entry.bubble "No reply received. Check worker logs." "ai"] :=
  (empty_reply_amended "Ada" 0 true true "hi" (some (Json.obj []))
      ⟨[], Stored.absent, [], none⟩ (by decide) (by decide)).1 (Json.obj []) rfl rfl

/-- Claim C4: the outbound request message list is exactly one system message
(the fixed template parameterized with the identity name) followed by the
history unchanged and in order, and the submit cycle never stores a
system-role entry in the history: after a cycle, every history element either
was already present or has role user or assistant. -/
theorem prompt_build_spec (name : String) (h : List Message) :
    messagesToSend name h = ⟨"system", systemPromptFor name⟩ :: h ∧
    ∀ (tid : Nat) (ok1 ok2 : Bool) (input : String) (outcome : FetchOutcome)
      (s : ChatState) (x : Message),
      x ∈ (submitCycle name tid ok1 ok2 input outcome s).history →
        x ∈ s.history ∨ x.role = "user" ∨ x.role = "assistant" := by
  constructor
  · have heta : (fun m : Message => (⟨m.role, m.content⟩ : Message)) = fun m => m := rfl
    simp only [messagesToSend, heta, List.map_id']
  · intro tid ok1 ok2 input outcome s x hx
    rcases submitCycle_history_shape name tid ok1 ok2 input outcome s with
      hs | ⟨hs, _⟩ | ⟨r, _, _, hs⟩
    · rw [hs] at hx
      exact Or.inl hx
    · rw [hs] at hx
      rcases mem_pushTruncate hx with h1 | h1
      · exact Or.inl h1
      · subst h1
        exact Or.inr (Or.inl rfl)
    · rw [hs] at hx
      rcases mem_pushTruncate hx with h1 | h1
      · rcases mem_pushTruncate h1 with h2 | h2
        · exact Or.inl h2
        · subst h2
          exact Or.inr (Or.inl rfl)
      · subst h1
        exact Or.inr (Or.inr rfl)

/-- Concrete instance of C4: a cycle on the empty state appends only the user
entry, whose role is user. -/
theorem prompt_build_spec_witness :
    (⟨"user", "hi"⟩ : Message)
        ∈ (submitCycle "Ada" 0 true true "hi" FetchOutcome.netFailure
            ⟨[], Stored.absent, [], none⟩).history ∧
    ((⟨"user", "hi"⟩ : Message) ∈ ([] : List Message) ∨
      (⟨"user", "hi"⟩ : Message).role = "user" ∨
      (⟨"user", "hi"⟩ : Message).role = "assistant") :=
  ⟨by decide, (prompt_build_spec "Ada" []).2 0 true true "hi" FetchOutcome.netFailure
      ⟨[], Stored.absent, [], none⟩ ⟨"user", "hi"⟩ (by decide)⟩

/-- Claim C5: a submit whose input trims to the empty string is a complete
no-op: history, store, transcript and latest-question banner are unchanged
and no network call is issued. -/
theorem empty_input_noop (name : String) (tid : Nat) (ok1 ok2 : Bool)
    (input : String) (outcome : FetchOutcome) (s : ChatState)
    (hemp : jsTrim input = "") :
    submitCycle name tid ok1 ok2 input outcome s
      = ⟨s.history, s.store, s.transcript, s.latest, none⟩ := by
  simp [submitCycle, hemp]

/-- Concrete instance of C5: whitespace-only input. -/
theorem empty_input_noop_witness :
    (jsTrim "  " = "") ∧
    submitCycle "Ada" 0 true true "  " FetchOutcome.netFailure
        ⟨[], Stored.absent, [], none⟩
      = ⟨[], Stored.absent, [], none, none⟩ :=
  ⟨by decide, empty_input_noop "Ada" 0 true true "  " FetchOutcome.netFailure
      ⟨[], Stored.absent, [], none⟩ (by decide)⟩

/-- Claim C6: on a non-success HTTP status the handler removes the typing
indicator, renders the generic server-error notice, and appends nothing
beyond the user entry of this submission; the persisted snapshot is the
user-appended history. -/
theorem server_error_no_append (name : String) (tid : Nat) (ok1 ok2 : Bool)
    (input : String) (body : Option Json) (s : ChatState)
    (hne : jsTrim input ≠ "") (htid : Entry.typing tid ∉ s.transcript) :
    (submitCycle name tid ok1 ok2 input (FetchOutcome.response false body) s).history
        = pushTruncate s.history ⟨"user", jsTrim input⟩ ∧
    (submitCycle name tid ok1 ok2 input (FetchOutcome.response false body) s).transcript
        = s.transcript ++ [Entry.bubble (jsTrim input) "user",
            Entry.bubble "Server error. See console." "ai"] ∧
    (submitCycle name tid ok1 ok2 input (FetchOutcome.response false body) s).store
        = saveHistory ok1 s.store (pushTruncate s.history ⟨"user", jsTrim input⟩) := by
  refine ⟨by simp [submitCycle, if_neg hne], ?_, by simp [submitCycle, if_neg hne]⟩
  simp [submitCycle, if_neg hne]
  rw [removeEl_cycle s.transcript tid _ htid (by simp)]
  simp

/-- Concrete instance of C6: HTTP 500-style non-OK response on the empty
state. -/
theorem server_error_no_append_witness :
    (submitCycle "Ada" 0 true true "hi" (FetchOutcome.response false none)
        ⟨[], Stored.absent, [], none⟩).history
      = pushTruncate [] ⟨"user", jsTrim "hi"⟩ ∧
    (submitCycle "Ada" 0 true true "hi" (FetchOutcome.response false none)
        ⟨[], Stored.absent, [], none⟩).transcript
      = [] ++ [Entry.bubble (jsTrim "hi") "user",
          Entry.bubble "Server error. See console." "ai"] ∧
    (submitCycle "Ada" 0 true true "hi" (FetchOutcome.response false none)
        ⟨[], Stored.absent, [], none⟩).store
      = saveHistory true Stored.absent (pushTruncate [] ⟨"user", jsTrim "hi"⟩) :=
  server_error_no_append "Ada" 0 true true "hi" none ⟨[], Stored.absent, [], none⟩
    (by decide) (by decide)

/-- Claim C8: in every completion path of a submission the typing element this
cycle created is absent from the final transcript, and its removal operation
is idempotent and is the identity when the element is already absent (so a
second removal causes no state change, and removal is a total operation that
cannot fail). -/
theorem typing_indicator_safety (name : String) (tid : Nat) (ok1 ok2 : Bool)
    (input : String) (outcome : FetchOutcome) (s : ChatState)
    (htid : Entry.typing tid ∉ s.transcript) :
    Entry.typing tid ∉ (submitCycle name tid ok1 ok2 input outcome s).transcript ∧
    (∀ t : List Entry, removeEl (removeEl t tid) tid = removeEl t tid) ∧
    (∀ t : List Entry, Entry.typing tid ∉ t → removeEl t tid = t) :=
  ⟨submitCycle_typing_removed name tid ok1 ok2 input outcome s htid,
   fun t => removeEl_idem t tid,
   fun _ ht => removeEl_of_not_mem ht⟩

/-- Concrete instance of C8: network failure path on the empty state. -/
theorem typing_indicator_safety_witness :
    Entry.typing 0 ∉ (submitCycle "Ada" 0 true true "hi" FetchOutcome.netFailure
        ⟨[], Stored.absent, [], none⟩).transcript ∧
    (∀ t : List Entry, removeEl (removeEl t 0) 0 = removeEl t 0) ∧
    (∀ t : List Entry, Entry.typing 0 ∉ t → removeEl t 0 = t) :=
  typing_indicator_safety "Ada" 0 true true "hi" FetchOutcome.netFailure
    ⟨[], Stored.absent, [], none⟩ (by decide)

theorem initChat_empty (name : String) (saveOk : Bool) (store0 : Stored)
    (hld : loadedHistory store0 = []) :
    (initChat name saveOk store0).historyJ
        = [encodeMsg ⟨"assistant", welcomeText name⟩] ∧
    (initChat name saveOk store0).transcript = [Entry.bubble (welcomeText name) "ai"] ∧
    (initChat name saveOk store0).store
        = saveHistory saveOk store0 [⟨"assistant", welcomeText name⟩] := by
  refine ⟨?_, ?_, ?_⟩ <;> simp [initChat, hld]

/-- Claim C9: when the loaded history is empty, init renders exactly one
assistant welcome bubble whose text contains the identity name, appends it as
the single history entry and persists it (when the storage write succeeds);
when the loaded history is non-empty, init appends nothing and leaves the
store untouched. -/
theorem init_welcome_spec (name : String) (saveOk : Bool) (store0 : Stored) :
    (loadedHistory store0 = [] →
      (initChat name saveOk store0).historyJ
          = [encodeMsg ⟨"assistant", welcomeText name⟩] ∧
      (initChat name saveOk store0).transcript
          = [Entry.bubble (welcomeText name) "ai"] ∧
      (saveOk = true → (initChat name saveOk store0).store
          = Stored.value (Json.arr [encodeMsg ⟨"assistant", welcomeText name⟩])) ∧
      ∃ pre post, welcomeText name = pre ++ name ++ post) ∧
    (loadedHistory store0 ≠ [] →
      (initChat name saveOk store0).historyJ = loadedHistory store0 ∧
      (initChat name saveOk store0).store = store0) := by
  constructor
  · intro hld
    obtain ⟨h1, h2, h3⟩ := initChat_empty name saveOk store0 hld
    refine ⟨h1, h2, fun hok => ?_, ?_⟩
    · rw [h3, hok]
      rfl
    · exact ⟨"Hi ",
        "! I\x27m your L\x27Oréal Smart Product Advisor. Ask me about products, routines, or personalised recommendations.",
        rfl⟩
  · intro hld
    cases hcase : loadedHistory store0 with
    | nil => exact absurd hcase hld
    | cons a l =>
        constructor <;> simp [initChat, hcase]

/-- Concrete instance of C9: empty store and identity Ada. -/
theorem init_welcome_spec_witness :
    (initChat "Ada" true Stored.absent).historyJ
        = [encodeMsg ⟨"assistant", welcomeText "Ada"⟩] ∧
    (initChat "Ada" true Stored.absent).transcript
        = [Entry.bubble (welcomeText "Ada") "ai"] ∧
    (initChat "Ada" true Stored.absent).store
        = Stored.value (Json.arr [encodeMsg ⟨"assistant", welcomeText "Ada"⟩]) ∧
    ∃ pre post, welcomeText "Ada" = pre ++ "Ada" ++ post := by
  obtain ⟨h1, h2, h3, h4⟩ := (init_welcome_spec "Ada" true Stored.absent).1 rfl
  exact ⟨h1, h2, h3 rfl, h4⟩

/-- Claim C10: every message this program itself appends to the history — the
init welcome, a submitted user message, an accepted assistant reply — has
role user or assistant and non-empty content; no operation appends an
empty-content or system-role entry. -/
theorem appended_messages_wellformed (name : String) (tid : Nat) (ok1 ok2 : Bool)
    (input : String) (outcome : FetchOutcome) (s : ChatState) :
    (∀ x ∈ (submitCycle name tid ok1 ok2 input outcome s).history,
      x ∈ s.history ∨ ((x.role = "user" ∨ x.role = "assistant") ∧ x.content ≠ "")) ∧
    (∀ (n : String) (saveOk : Bool) (store0 : Stored), loadedHistory store0 = [] →
      (initChat n saveOk store0).historyJ = [encodeMsg ⟨"assistant", welcomeText n⟩] ∧
      welcomeText n ≠ "") := by
  constructor
  · intro x hx
    rcases submitCycle_history_shape name tid ok1 ok2 input outcome s with
      hs | ⟨hs, hne⟩ | ⟨r, hr, hne, hs⟩
    · rw [hs] at hx
      exact Or.inl hx
    · rw [hs] at hx
      rcases mem_pushTruncate hx with h1 | h1
      · exact Or.inl h1
      · subst h1
        exact Or.inr ⟨Or.inl rfl, hne⟩
    · rw [hs] at hx
      rcases mem_pushTruncate hx with h1 | h1
      · rcases mem_pushTruncate h1 with h2 | h2
        · exact Or.inl h2
        · subst h2
          exact Or.inr ⟨Or.inl rfl, hne⟩
      · subst h1
        exact Or.inr ⟨Or.inr rfl, hr⟩
  · intro n saveOk store0 hld
    exact ⟨(initChat_empty n saveOk store0 hld).1, welcomeText_ne n⟩

/-- Concrete instance of C10: the user entry appended by a concrete cycle has
role user and non-empty content, and init on an empty store appends the
assistant welcome. -/
theorem appended_messages_wellformed_witness :
    ((⟨"user", "hi"⟩ : Message) ∈ ([] : List Message) ∨
      (((⟨"user", "hi"⟩ : Message).role = "user" ∨
        (⟨"user", "hi"⟩ : Message).role = "assistant") ∧
        (⟨"user", "hi"⟩ : Message).content ≠ "")) ∧
    ((initChat "Ada" true Stored.absent).historyJ
        = [encodeMsg ⟨"assistant", welcomeText "Ada"⟩] ∧ welcomeText "Ada" ≠ "") :=
  ⟨(appended_messages_wellformed "Ada" 0 true true "hi" FetchOutcome.netFailure
      ⟨[], Stored.absent, [], none⟩).1 ⟨"user", "hi"⟩ (by decide),
   (appended_messages_wellformed "Ada" 0 true true "hi" FetchOutcome.netFailure
      ⟨[], Stored.absent, [], none⟩).2 "Ada" true Stored.absent rfl⟩

end LorealChat
